import Mathlib

/-!
Verification of the `FSMAdminMixin` admin binding of a Django FSM library
(`django_fsm/admin.py`), via a shallow embedding.

The embedding models:
* transition descriptors with their open `custom` metadata bag,
* the `_django_fsm` metadata attached to transition methods,
* `FSMAdminMixin.get_readonly_fields`, `_get_fsm_object_transitions`,
  `response_change`, `get_fsm_transition`, `get_fsm_transition_custom`,
  `get_fsm_transition_form` and `fsm_transition_view`.

Python exceptions are modelled explicitly: an invocation of a transition
method either returns normally or raises a tagged exception; the admin
code's `try`/`except` structure becomes pattern matching on that outcome.
-/

set_option autoImplicit false

namespace DjangoFSMAdmin

/-- A Python exception relevant to the admin code: `TypeError` (raised on a
signature mismatch or by business logic), `TransitionNotAllowed`,
`ConcurrentTransition` (carrying its `str(err)` text) and any other
exception, tagged by an identifying string. -/
inductive PyExc where
  | typeError
  | transitionNotAllowed
  | concurrentTransition (msg : String)
  | other (tag : String)
deriving DecidableEq, Repr

/-- Outcome of calling a Python callable: normal return or a raised exception. -/
inductive CallOutcome where
  | ok
  | exc (e : PyExc)
deriving DecidableEq, Repr

/-- The three argument shapes `response_change` may use to invoke a
transition method: `partial(f, request=request, by=request.user)`,
`partial(f, by=request.user)` and plain `f()`. -/
inductive ArgShape where
  | requestBy
  | byOnly
  | plain
deriving DecidableEq, Repr

/-- A Python value stored in a transition's `custom` mapping: a bool, a
string (truthy iff nonempty), or a form class (identified by its import
path; always truthy). -/
inductive CustomVal where
  | pyBool (b : Bool)
  | pyStr (s : String)
  | pyForm (path : String)
deriving DecidableEq, Repr

/-- Python truthiness of a `CustomVal`. -/
def CustomVal.truthy : CustomVal → Bool
  | .pyBool b => b
  | .pyStr s => !s.isEmpty
  | .pyForm _ => true

/-- The open `custom` metadata mapping of a transition descriptor. -/
abbrev Custom := List (String × CustomVal)

/-- `custom.get(key)`: first binding for `key`, if any (Python `dict.get`
with default `None`). -/
def customGet (c : Custom) (k : String) : Option CustomVal :=
  (c.find? (fun kv => kv.1 == k)).map (·.2)

/-- A transition descriptor: one edge of the state machine, with its
`source` state (the string `"*"` standing for the wildcard), `target`
state and `custom` metadata. -/
structure Transition where
  source : String
  target : String
  custom : Custom
deriving DecidableEq, Repr

/-- The `_django_fsm` metadata of a transition method: its registered
descriptors, in registration order. -/
structure FSMMeta where
  transitions : List Transition
deriving DecidableEq, Repr

/-- Modelled from the spec: the FSM core's `FSMMeta.get_transition`
(`resolve(name, current_state)`) is not part of the admin source; the spec
says it scans the descriptors in registration order and returns the first
whose `source` equals `current_state` or is the wildcard, with no match
reported as a lookup failure (here `none`). -/
def resolveTransition (transitions : List Transition) (current_state : String) :
    Option Transition :=
  transitions.find? (fun t => t.source == current_state || t.source == "*")

/-- An attribute of the model object that the admin may fetch by name: a
callable with optional `_django_fsm` metadata.  `call` gives the outcome of
invoking it under each of the three argument shapes; `callKw` gives the
outcome of invoking it with a keyword-argument dictionary (used by the
transition form view with `**form.cleaned_data`). -/
structure Method where
  _django_fsm : Option FSMMeta
  call : ArgShape → CallOutcome
  callKw : Custom → CallOutcome

/-- The model object as the admin sees it: its named attributes and the
current state of its FSM field. -/
structure Obj where
  attrs : List (String × Method)
  current_state : String

/-- `getattr(obj, name)`: `none` models a raised `AttributeError`. -/
def Obj.getattr (obj : Obj) (name : String) : Option Method :=
  (obj.attrs.find? (fun kv => kv.1 == name)).map (·.2)

/-- `FSMAdminMixin.get_fsm_transition`: returns `None` when the attribute
has no `_django_fsm` metadata, else the descriptor for the instance's
current state. -/
def get_fsm_transition («instance» : Obj) (transition_func : Method) : Option Transition :=
  match transition_func._django_fsm with
  | none => none
  | some fsm_meta => resolveTransition fsm_meta.transitions «instance».current_state

/-- `FSMAdminMixin.get_fsm_transition_custom`:
`getattr(self.get_fsm_transition(instance, transition_func), "custom", {})`. -/
def get_fsm_transition_custom («instance» : Obj) (transition_func : Method) : Custom :=
  match get_fsm_transition «instance» transition_func with
  | none => []
  | some t => t.custom

/-- The `for fn in [...]` loop of `response_change` under `FSM_LOG_ENABLED`:
try each argument shape in order, swallowing `TypeError` and stopping at
the first attempt that does not raise it.  Returns the shapes actually
invoked and the outcome escaping the loop (`ok` both when an attempt
returned normally and when every attempt raised `TypeError`, since then the
loop simply completes). -/
def runAttempts (transition_func : ArgShape → CallOutcome) :
    List ArgShape → List ArgShape × CallOutcome
  | [] => ([], .ok)
  | shape :: rest =>
    match transition_func shape with
    | .exc .typeError =>
      let (tried, outcome) := runAttempts transition_func rest
      (shape :: tried, outcome)
    | out => ([shape], out)

/-- The invocation block of `response_change` (lines 144–157): with the
logging plugin the three-shape fallback loop, without it a single plain
call.  Returns the shapes invoked and the escaping outcome. -/
def invokeTransition (fsm_log_enabled : Bool) (transition_func : ArgShape → CallOutcome) :
    List ArgShape × CallOutcome :=
  if fsm_log_enabled then
    runAttempts transition_func [.requestBy, .byOnly, .plain]
  else
    ([.plain], transition_func .plain)

/-- A user-facing message posted via `message_user`. -/
inductive AdminMessage where
  | notValid (transition_name : String)
  | notAllowed (transition_name : String)
  | error (transition_name : String) (error_text : String)
  | success (transition_name : String)
deriving DecidableEq, Repr

/-- The HTTP response produced by `response_change`. -/
inductive RCResponse where
  | superResponse
  | fsmRedirect
  | formRedirect (transition_name : String)
  | propagate (e : PyExc)
deriving DecidableEq, Repr

/-- Observable outcome of `response_change`: the response, whether
`obj.save()` was called, the messages posted, and the argument shapes the
transition method was invoked with. -/
structure RCOutcome where
  response : RCResponse
  saved : Bool
  msgs : List AdminMessage
  attempts : List ArgShape
deriving DecidableEq, Repr

/-- `FSMAdminMixin.response_change`.  `post_param` is
`request.POST.get("_fsm_transition_to")` (`none` when absent; the empty
string is falsy, so both fall through to the superclass). -/
def response_change (fsm_log_enabled : Bool) (post_param : Option String) (obj : Obj) :
    RCOutcome :=
  match post_param with
  | none => ⟨.superResponse, false, [], []⟩
  | some transition_name =>
    if transition_name.isEmpty then ⟨.superResponse, false, [], []⟩
    else
      match obj.getattr transition_name with
      | none => ⟨.fsmRedirect, false, [.notValid transition_name], []⟩
      | some transition_func =>
        if ((customGet (get_fsm_transition_custom obj transition_func) "form").elim
            false CustomVal.truthy) then
          ⟨.formRedirect transition_name, false, [], []⟩
        else
          match invokeTransition fsm_log_enabled transition_func.call with
          | (attempts, outcome) =>
            match outcome with
            | .exc .transitionNotAllowed =>
              ⟨.fsmRedirect, false, [.notAllowed transition_name], attempts⟩
            | .exc (.concurrentTransition msg) =>
              ⟨.fsmRedirect, false, [.error transition_name msg], attempts⟩
            | .exc e => ⟨.propagate e, false, [], attempts⟩
            | .ok => ⟨.fsmRedirect, true, [.success transition_name], attempts⟩

/-- A model field as seen through `self.model._meta.get_field`: its name and
its `protected` flag (`getattr(field, "protected", False)`). -/
structure ModelField where
  name : String
  «protected» : Bool
deriving DecidableEq, Repr

/-- `self.model._meta.get_field(name)`: `none` models `FieldDoesNotExist`. -/
def get_field (model_fields : List ModelField) (name : String) : Option ModelField :=
  model_fields.find? (fun f => f.name == name)

/-- One iteration of the `for fsm_field_name in self.fsm_fields` loop of
`get_readonly_fields`: skip names already read-only, skip names missing from
the model (`FieldDoesNotExist` is passed over) or unprotected, append the
protected ones. -/
def roStep (model_fields : List ModelField) (read_only_fields : List String)
    (fsm_field_name : String) : List String :=
  if fsm_field_name ∈ read_only_fields then read_only_fields
  else
    match get_field model_fields fsm_field_name with
    | none => read_only_fields
    | some field =>
      if field.«protected» then read_only_fields ++ [fsm_field_name]
      else read_only_fields

/-- `FSMAdminMixin.get_readonly_fields`: starting from the superclass's
read-only tuple `base`, append each FSM field that is not already present,
exists on the model and is protected. -/
def get_readonly_fields (model_fields : List ModelField) (fsm_fields : List String)
    (base : List String) : List String :=
  fsm_fields.foldl (roStep model_fields) base

/-- `FSMAdminMixin.default_disallow_transition`:
`not getattr(settings, "FSM_ADMIN_FORCE_PERMIT", False)`.  The setting is
`none` when absent. -/
def default_disallow_transition (fsm_admin_force_permit : Option Bool) : Bool :=
  !(fsm_admin_force_permit.getD false)

/-- The filter applied to each available transition in
`_get_fsm_object_transitions`: truthiness of
`t.custom.get("admin", self.default_disallow_transition)`. -/
def adminAllowed (default_disallow : Bool) (t : Transition) : Bool :=
  (customGet t.custom "admin").elim default_disallow CustomVal.truthy

/-- The `FSMObjectTransition` dataclass placed into the change-view context. -/
structure FSMObjectTransition where
  fsm_field : String
  available_transitions : List Transition
deriving DecidableEq, Repr

/-- `FSMAdminMixin._get_fsm_object_transitions`: one entry per FSM field in
sorted order, holding the user-available transitions that pass the
`"admin"`-metadata filter.  `userTransitions f` stands for
`obj.get_available_user_<f>_transitions(user=request.user)`. -/
def _get_fsm_object_transitions (fsm_fields : List String) (default_disallow : Bool)
    (userTransitions : String → List Transition) : List FSMObjectTransition :=
  (fsm_fields.insertionSort (· ≤ ·)).map fun field_name =>
    ⟨field_name, (userTransitions field_name).filter (adminAllowed default_disallow)⟩

/-- Django's `import_string`: turns a dotted import path into the class it
names; form classes are identified by their path here. -/
def import_string (path : String) : CustomVal := .pyForm path

/-- `FSMAdminMixin.get_fsm_transition_form`: `transition.custom.get("form")`,
with a string value resolved through `import_string`. -/
def get_fsm_transition_form (transition : Transition) : Option CustomVal :=
  match customGet transition.custom "form" with
  | some (.pyStr s) => some (import_string s)
  | v => v

/-- HTTP request method, as tested by `request.method == "POST"`. -/
inductive HttpMethod where
  | get
  | post
deriving DecidableEq, Repr

/-- The HTTP response produced by `fsm_transition_view`.  `attributeError`
and `indexError` model the uncaught exceptions raised when the attribute is
missing or the metadata's transitions list is empty. -/
inductive ViewResponse where
  | attributeError
  | badRequest (transition_name : String)
  | indexError
  | renderForm (transition : Transition)
  | redirectChange
  | propagate (e : PyExc)
deriving DecidableEq, Repr

/-- Observable outcome of `fsm_transition_view`: the response, whether
`obj.save()` was called, the messages posted, the keyword-argument
dictionaries of the `transition_method(**cleaned_data)` calls, and the
number of plain `transition_method()` calls. -/
structure ViewOutcome where
  response : ViewResponse
  saved : Bool
  msgs : List AdminMessage
  kw_calls : List Custom
  plain_calls : Nat
deriving DecidableEq, Repr

/-- `FSMAdminMixin.fsm_transition_view`.  `form_is_valid` and `cleaned_data`
stand for `transition_form.is_valid()` and `transition_form.cleaned_data`
of the bound form. -/
def fsm_transition_view (obj : Obj) (transition_name : String) (method : HttpMethod)
    (form_is_valid : Bool) (cleaned_data : Custom) : ViewOutcome :=
  match obj.getattr transition_name with
  | none => ⟨.attributeError, false, [], [], 0⟩
  | some transition_method =>
    match transition_method._django_fsm with
    | none => ⟨.badRequest transition_name, false, [], [], 0⟩
    | some fsm_meta =>
      match fsm_meta.transitions with
      | [] => ⟨.indexError, false, [], [], 0⟩
      | transition :: _ =>
        if (get_fsm_transition_form transition).elim false CustomVal.truthy then
          match method with
          | .post =>
            if form_is_valid then
              match transition_method.callKw cleaned_data with
              | .ok => ⟨.redirectChange, true, [], [cleaned_data], 0⟩
              | .exc e => ⟨.propagate e, false, [], [cleaned_data], 0⟩
            else ⟨.renderForm transition, false, [], [], 0⟩
          | .get => ⟨.renderForm transition, false, [], [], 0⟩
        else
          match transition_method.call .plain with
          | .exc .transitionNotAllowed =>
            ⟨.redirectChange, false, [.notAllowed transition_name], [], 1⟩
          | .exc e => ⟨.propagate e, false, [], [], 1⟩
          | .ok => ⟨.redirectChange, true, [.success transition_name], [], 1⟩

/-- The argument shapes the spec's description of the logging fallback
predicts: `(request=request, by=request.user)` first, then
`(by=request.user)`, then no extra arguments, each tried only if every
earlier shape raised `TypeError`. -/
def specLogAttempts (f : ArgShape → CallOutcome) : List ArgShape :=
  if f .requestBy = .exc .typeError then
    if f .byOnly = .exc .typeError then [.requestBy, .byOnly, .plain]
    else [.requestBy, .byOnly]
  else [.requestBy]

/-- The outcome the spec's description of the logging fallback predicts:
the result of the first attempt not raising `TypeError`, or a normal fall
through (no exception) when every shape raises `TypeError`. -/
def specLogOutcome (f : ArgShape → CallOutcome) : CallOutcome :=
  if f .requestBy = .exc .typeError then
    if f .byOnly = .exc .typeError then
      if f .plain = .exc .typeError then .ok else f .plain
    else f .byOnly
  else f .requestBy

/-! Concrete instances used as witnesses and counterexamples. -/

/-- A transition from state `"a"` with empty `custom`. -/
def exPlainTransition : Transition := ⟨"a", "b", []⟩

/-- A transition method always raising `TransitionNotAllowed`. -/
def exNotAllowedMethod : Method :=
  ⟨some ⟨[exPlainTransition]⟩, fun _ => .exc .transitionNotAllowed, fun _ => .ok⟩

/-- An object whose `"reject"` attribute always raises `TransitionNotAllowed`. -/
def exNotAllowedObj : Obj := ⟨[("reject", exNotAllowedMethod)], "a"⟩

/-- A transition method always raising `TypeError`, under every argument
shape. -/
def exTypeErrorMethod : Method :=
  ⟨some ⟨[exPlainTransition]⟩, fun _ => .exc .typeError, fun _ => .ok⟩

/-- An object whose `"go"` attribute always raises `TypeError`. -/
def exTypeErrorObj : Obj := ⟨[("go", exTypeErrorMethod)], "a"⟩

/-- A transition method always raising `ValueError("boom")`, modelled as the
exception tagged `"boom"`. -/
def exBoomMethod : Method :=
  ⟨some ⟨[exPlainTransition]⟩, fun _ => .exc (.other "boom"), fun _ => .ok⟩

/-- An object whose `"go"` attribute always raises the `"boom"` exception. -/
def exBoomObj : Obj := ⟨[("go", exBoomMethod)], "a"⟩

/-- A transition from state `"a"` whose `custom` carries a form class. -/
def exFormTransition : Transition :=
  ⟨"a", "b", [("form", .pyForm "testapp.admin_forms.AdminBlogPostRenameForm")]⟩

/-- A transition method with a form-requiring descriptor; all invocations
return normally. -/
def exFormMethod : Method :=
  ⟨some ⟨[exFormTransition]⟩, fun _ => .ok, fun _ => .ok⟩

/-- An object at state `"a"` whose `"rename"` attribute requires a form. -/
def exFormObj : Obj := ⟨[("rename", exFormMethod)], "a"⟩

/-- First registered descriptor of the overloaded transition: source `"a"`. -/
def exOverloadT1 : Transition := ⟨"a", "b", [("form", .pyForm "forms.RenameFormA")]⟩

/-- Second registered descriptor of the overloaded transition: source `"b"`. -/
def exOverloadT2 : Transition := ⟨"b", "c", [("form", .pyForm "forms.RenameFormB")]⟩

/-- A transition method with two state-dependent descriptor overloads. -/
def exOverloadMethod : Method :=
  ⟨some ⟨[exOverloadT1, exOverloadT2]⟩, fun _ => .ok, fun _ => .ok⟩

/-- An object at state `"b"`, matching the second overload of `"go"`. -/
def exOverloadObj : Obj := ⟨[("go", exOverloadMethod)], "b"⟩

/-- A plain callable attribute with no `_django_fsm` metadata. -/
def exPlainCallable : Method := ⟨none, fun _ => .ok, fun _ => .ok⟩

/-- An object whose `"frobnicate"` attribute is a plain callable. -/
def exPlainCallableObj : Obj := ⟨[("frobnicate", exPlainCallable)], "a"⟩

/-- A transition whose `custom` lacks the `"admin"` key. -/
def exNoAdminKeyTransition : Transition := ⟨"a", "b", [("label", .pyStr "Go")]⟩

/-! Helper lemmas. -/

theorem runAttempts_cons_typeError (f : ArgShape → CallOutcome) (shape : ArgShape)
    (rest : List ArgShape) (h : f shape = .exc .typeError) :
    runAttempts f (shape :: rest) =
      (shape :: (runAttempts f rest).1, (runAttempts f rest).2) := by
  simp [runAttempts, h]

theorem runAttempts_cons_stop (f : ArgShape → CallOutcome) (shape : ArgShape)
    (rest : List ArgShape) (h : f shape ≠ .exc .typeError) :
    runAttempts f (shape :: rest) = ([shape], f shape) := by
  rcases hv : f shape with _ | e
  · simp [runAttempts, hv]
  · rcases e with _ | _ | msg | tag
    · exact absurd hv h
    · simp [runAttempts, hv]
    · simp [runAttempts, hv]
    · simp [runAttempts, hv]

theorem runAttempts_three (f : ArgShape → CallOutcome) :
    runAttempts f [.requestBy, .byOnly, .plain] = (specLogAttempts f, specLogOutcome f) := by
  by_cases h1 : f .requestBy = .exc .typeError
  · by_cases h2 : f .byOnly = .exc .typeError
    · by_cases h3 : f .plain = .exc .typeError
      · rw [runAttempts_cons_typeError f _ _ h1, runAttempts_cons_typeError f _ _ h2,
          runAttempts_cons_typeError f _ _ h3]
        simp [runAttempts, specLogAttempts, specLogOutcome, h1, h2, h3]
      · rw [runAttempts_cons_typeError f _ _ h1, runAttempts_cons_typeError f _ _ h2,
          runAttempts_cons_stop f _ _ h3]
        simp [specLogAttempts, specLogOutcome, h1, h2, h3]
    · rw [runAttempts_cons_typeError f _ _ h1, runAttempts_cons_stop f _ _ h2]
      simp [specLogAttempts, specLogOutcome, h1, h2]
  · rw [runAttempts_cons_stop f _ _ h1]
    simp [specLogAttempts, specLogOutcome, h1]

/-! Claim theorems. -/

/-- C3: when the logging plugin is detected (`FSM_LOG_ENABLED` true), the
transition is invoked with the three argument shapes
`(request=request, by=request.user)`, `(by=request.user)`, no extra
arguments, in that order, swallowing `TypeError` from each attempt and
stopping at the first attempt that does not raise `TypeError`; when the
plugin is absent, the transition is invoked once with no extra arguments. -/
theorem invoke_transition_dispatch (f : ArgShape → CallOutcome) :
    invokeTransition true f = (specLogAttempts f, specLogOutcome f) ∧
    invokeTransition false f = ([.plain], f .plain) :=
  ⟨by simp [invokeTransition, runAttempts_three], by simp [invokeTransition]⟩

/-- C1: for a POST naming an existing transition (and not routed to the
form view): `TransitionNotAllowed` is reported with the not-allowed message
and `obj.save()` is not called; `ConcurrentTransition` is reported with the
error message carrying the exception's text and `obj.save()` is not called;
a normal return triggers `obj.save()` and the success message. -/
theorem response_change_exception_handling
    (fsm_log_enabled : Bool) (transition_name : String) (obj : Obj)
    (transition_func : Method) (attempts : List ArgShape) (outcome : CallOutcome)
    (hname : transition_name.isEmpty = false)
    (hattr : obj.getattr transition_name = some transition_func)
    (hform : (customGet (get_fsm_transition_custom obj transition_func) "form").elim
      false CustomVal.truthy = false)
    (hinv : invokeTransition fsm_log_enabled transition_func.call = (attempts, outcome)) :
    (outcome = .exc .transitionNotAllowed →
      response_change fsm_log_enabled (some transition_name) obj =
        ⟨.fsmRedirect, false, [.notAllowed transition_name], attempts⟩) ∧
    (∀ msg, outcome = .exc (.concurrentTransition msg) →
      response_change fsm_log_enabled (some transition_name) obj =
        ⟨.fsmRedirect, false, [.error transition_name msg], attempts⟩) ∧
    (outcome = .ok →
      response_change fsm_log_enabled (some transition_name) obj =
        ⟨.fsmRedirect, true, [.success transition_name], attempts⟩) := by
  refine ⟨?_, ?_, ?_⟩
  · intro h; subst h
    simp [response_change, hname, hattr, hform, hinv]
  · intro msg h; subst h
    simp [response_change, hname, hattr, hform, hinv]
  · intro h; subst h
    simp [response_change, hname, hattr, hform, hinv]

/-- Witness for C1 at a concrete input: a transition raising
`TransitionNotAllowed` yields the not-allowed message, no save, and the
redirect. -/
theorem response_change_exception_handling_witness :
    response_change false (some "reject") exNotAllowedObj =
      ⟨.fsmRedirect, false, [.notAllowed "reject"], [.plain]⟩ :=
  (response_change_exception_handling false "reject" exNotAllowedObj exNotAllowedMethod
    [.plain] (.exc .transitionNotAllowed) rfl rfl rfl rfl).1 rfl

/-- C2 counterexample: with the logging plugin enabled, a `TypeError`
raised by the business logic under every argument shape is swallowed by the
signature-probing loop rather than propagated, and `obj.save()` is then
called with the success message reported. -/
theorem response_change_swallows_typeerror :
    exTypeErrorMethod.call .plain = .exc .typeError ∧
    response_change true (some "go") exTypeErrorObj =
      ⟨.fsmRedirect, true, [.success "go"], [.requestBy, .byOnly, .plain]⟩ :=
  ⟨rfl, rfl⟩

/-- C2 amended: every exception that escapes the invocation block other
than `TransitionNotAllowed` and `ConcurrentTransition` propagates unchanged
out of `response_change` with no message and no `obj.save()`; however, when
`FSM_LOG_ENABLED` is true a `TypeError` raised by the business logic never
escapes the invocation block (the fallback loop swallows it). -/
theorem response_change_propagates_unhandled
    (fsm_log_enabled : Bool) (transition_name : String) (obj : Obj)
    (transition_func : Method) (attempts : List ArgShape) (e : PyExc)
    (hname : transition_name.isEmpty = false)
    (hattr : obj.getattr transition_name = some transition_func)
    (hform : (customGet (get_fsm_transition_custom obj transition_func) "form").elim
      false CustomVal.truthy = false)
    (hinv : invokeTransition fsm_log_enabled transition_func.call = (attempts, .exc e))
    (hna : e ≠ .transitionNotAllowed)
    (hct : ∀ msg, e ≠ .concurrentTransition msg) :
    response_change fsm_log_enabled (some transition_name) obj =
      ⟨.propagate e, false, [], attempts⟩ := by
  rcases e with _ | _ | msg | tag
  · simp [response_change, hname, hattr, hform, hinv]
  · exact absurd rfl hna
  · exact absurd rfl (hct msg)
  · simp [response_change, hname, hattr, hform, hinv]

/-- Witness for the C2 amended theorem at a concrete input: a `"boom"`
exception propagates unchanged with no save. -/
theorem response_change_propagates_unhandled_witness :
    response_change false (some "go") exBoomObj =
      ⟨.propagate (.other "boom"), false, [], [.plain]⟩ :=
  response_change_propagates_unhandled false "go" exBoomObj exBoomMethod [.plain]
    (.other "boom") rfl rfl rfl rfl (fun h => PyExc.noConfusion h)
    (fun _ h => PyExc.noConfusion h)

/-- C8: when the POST parameter names an attribute the object does not
have, `response_change` reports the not-valid message, invokes nothing,
saves nothing, and redirects. -/
theorem response_change_unknown_attribute
    (fsm_log_enabled : Bool) (transition_name : String) (obj : Obj)
    (hname : transition_name.isEmpty = false)
    (hattr : obj.getattr transition_name = none) :
    response_change fsm_log_enabled (some transition_name) obj =
      ⟨.fsmRedirect, false, [.notValid transition_name], []⟩ := by
  simp [response_change, hname, hattr]

/-- Witness for C8 at a concrete input. -/
theorem response_change_unknown_attribute_witness :
    response_change false (some "zap") exNotAllowedObj =
      ⟨.fsmRedirect, false, [.notValid "zap"], []⟩ :=
  response_change_unknown_attribute false "zap" exNotAllowedObj rfl rfl

theorem invokeTransition_attempts_ne_nil (fsm_log_enabled : Bool)
    (f : ArgShape → CallOutcome) : (invokeTransition fsm_log_enabled f).1 ≠ [] := by
  cases fsm_log_enabled
  · simp [invokeTransition]
  · by_cases h : f .requestBy = .exc .typeError
    · simp [invokeTransition, runAttempts_cons_typeError f _ _ h]
    · simp [invokeTransition, runAttempts_cons_stop f _ _ h]

theorem mem_fsm_object_transitions (fsm_fields : List String) (default_disallow : Bool)
    (userTransitions : String → List Transition) (field_name : String)
    (hmem : field_name ∈ fsm_fields) :
    ∃ e ∈ _get_fsm_object_transitions fsm_fields default_disallow userTransitions,
      e.fsm_field = field_name ∧
      ∀ t, t ∈ e.available_transitions ↔
        t ∈ userTransitions field_name ∧ adminAllowed default_disallow t = true := by
  have hmem' : field_name ∈ fsm_fields.insertionSort (· ≤ ·) :=
    (List.perm_insertionSort _ fsm_fields).mem_iff.mpr hmem
  refine ⟨⟨field_name, (userTransitions field_name).filter (adminAllowed default_disallow)⟩,
    ?_, rfl, ?_⟩
  · simp only [_get_fsm_object_transitions, List.mem_map]
    exact ⟨field_name, hmem', rfl⟩
  · intro t
    simp [List.mem_filter]

/-- C6: when the descriptor resolved for the object's current state has a
truthy `"form"` entry in its `custom` metadata, `response_change` does not
invoke the transition and redirects to the transition form view; in that
view, once the POSTed form validates, the transition is invoked with
exactly the keyword arguments of the form's `cleaned_data` and (the
invocation returning normally) the object is saved. -/
theorem form_transition_flow
    (fsm_log_enabled : Bool) (transition_name : String) (obj : Obj)
    (transition_func : Method)
    (hname : transition_name.isEmpty = false)
    (hattr : obj.getattr transition_name = some transition_func)
    (hform : (customGet (get_fsm_transition_custom obj transition_func) "form").elim
      false CustomVal.truthy = true) :
    response_change fsm_log_enabled (some transition_name) obj =
      ⟨.formRedirect transition_name, false, [], []⟩ ∧
    (∀ (fsm_meta : FSMMeta) (t : Transition) (rest : List Transition) (cleaned_data : Custom),
      transition_func._django_fsm = some fsm_meta →
      fsm_meta.transitions = t :: rest →
      (get_fsm_transition_form t).elim false CustomVal.truthy = true →
      transition_func.callKw cleaned_data = .ok →
      fsm_transition_view obj transition_name .post true cleaned_data =
        ⟨.redirectChange, true, [], [cleaned_data], 0⟩) := by
  constructor
  · simp [response_change, hname, hattr, hform]
  · intro fsm_meta t rest cleaned_data hmeta htr hft hok
    simp [fsm_transition_view, hattr, hmeta, htr, hft, hok]

/-- Witness for C6 at a concrete input: a form-requiring transition
redirects from `response_change`, and the form view invokes it with the
cleaned data and saves. -/
theorem form_transition_flow_witness :
    response_change false (some "rename") exFormObj =
      ⟨.formRedirect "rename", false, [], []⟩ ∧
    fsm_transition_view exFormObj "rename" .post true [("title", .pyStr "T")] =
      ⟨.redirectChange, true, [], [[("title", .pyStr "T")]], 0⟩ :=
  ⟨(form_transition_flow false "rename" exFormObj exFormMethod rfl rfl rfl).1,
   (form_transition_flow false "rename" exFormObj exFormMethod rfl rfl rfl).2
     ⟨[exFormTransition]⟩ exFormTransition [] [("title", .pyStr "T")] rfl rfl rfl rfl⟩

/-- C7 counterexample: with two state-dependent descriptor overloads and
the object at state `"b"`, the form view renders with the first registered
descriptor (source `"a"`), while resolution against the current state
yields the second descriptor — the claim that the view uses the
state-resolved descriptor is false. -/
theorem view_descriptor_counterexample :
    fsm_transition_view exOverloadObj "go" .get false [] =
      ⟨.renderForm exOverloadT1, false, [], [], 0⟩ ∧
    get_fsm_transition exOverloadObj exOverloadMethod = some exOverloadT2 ∧
    exOverloadT1 ≠ exOverloadT2 :=
  ⟨rfl, rfl, by decide⟩

/-- C7 amended: the descriptor used by the transition form view to select
the form class and render the form page is the first descriptor in the
method's registration-order list, irrespective of the instance's current
state. -/
theorem view_uses_first_registered_descriptor
    (obj : Obj) (transition_name : String) (transition_func : Method)
    (fsm_meta : FSMMeta) (t : Transition) (rest : List Transition)
    (hattr : obj.getattr transition_name = some transition_func)
    (hmeta : transition_func._django_fsm = some fsm_meta)
    (htr : fsm_meta.transitions = t :: rest)
    (hform : (get_fsm_transition_form t).elim false CustomVal.truthy = true) :
    ∀ s : String,
      fsm_transition_view { obj with current_state := s } transition_name .get false [] =
        ⟨.renderForm t, false, [], [], 0⟩ := by
  intro s
  have hattr' : Obj.getattr { obj with current_state := s } transition_name
      = some transition_func := hattr
  simp [fsm_transition_view, hattr', hmeta, htr, hform]

/-- Witness for the C7 amended theorem at a concrete input. -/
theorem view_uses_first_registered_descriptor_witness :
    fsm_transition_view { exOverloadObj with current_state := "q" } "go" .get false [] =
      ⟨.renderForm exOverloadT1, false, [], [], 0⟩ :=
  view_uses_first_registered_descriptor exOverloadObj "go" exOverloadMethod
    ⟨[exOverloadT1, exOverloadT2]⟩ exOverloadT1 [exOverloadT2] rfl rfl rfl rfl "q"

/-- C10: `response_change` produces the not-valid message exactly when the
named attribute is missing; an existing attribute without `_django_fsm`
metadata is still invoked (its custom metadata treated as empty), whereas
`fsm_transition_view` rejects such an attribute with HTTP 400 before
invoking anything. -/
theorem not_valid_only_for_missing_attribute
    (fsm_log_enabled : Bool) (transition_name : String) (obj : Obj)
    (method : HttpMethod) (form_is_valid : Bool) (cleaned_data : Custom)
    (hname : transition_name.isEmpty = false) :
    (obj.getattr transition_name = none →
      response_change fsm_log_enabled (some transition_name) obj =
        ⟨.fsmRedirect, false, [.notValid transition_name], []⟩) ∧
    (∀ transition_func, obj.getattr transition_name = some transition_func →
      AdminMessage.notValid transition_name ∉
        (response_change fsm_log_enabled (some transition_name) obj).msgs) ∧
    (∀ transition_func, obj.getattr transition_name = some transition_func →
      transition_func._django_fsm = none →
      get_fsm_transition_custom obj transition_func = [] ∧
      (response_change fsm_log_enabled (some transition_name) obj).attempts =
        (invokeTransition fsm_log_enabled transition_func.call).1 ∧
      (invokeTransition fsm_log_enabled transition_func.call).1 ≠ []) ∧
    (∀ transition_func, obj.getattr transition_name = some transition_func →
      transition_func._django_fsm = none →
      fsm_transition_view obj transition_name method form_is_valid cleaned_data =
        ⟨.badRequest transition_name, false, [], [], 0⟩) := by
  refine ⟨?_, ?_, ?_, ?_⟩
  · intro hattr
    simp [response_change, hname, hattr]
  · intro transition_func hattr
    by_cases hform : (customGet (get_fsm_transition_custom obj transition_func) "form").elim
        false CustomVal.truthy = true
    · simp [response_change, hname, hattr, hform]
    · rcases hi : invokeTransition fsm_log_enabled transition_func.call with ⟨attempts, outcome⟩
      rcases outcome with _ | e
      · simp [response_change, hname, hattr, hform, hi]
      · rcases e with _ | _ | msg | tag <;>
          simp [response_change, hname, hattr, hform, hi]
  · intro transition_func hattr hmeta
    have hcustom : get_fsm_transition_custom obj transition_func = [] := by
      simp [get_fsm_transition_custom, get_fsm_transition, hmeta]
    have hform : (customGet (get_fsm_transition_custom obj transition_func) "form").elim
        false CustomVal.truthy = false := by
      simp [hcustom, customGet]
    refine ⟨hcustom, ?_, invokeTransition_attempts_ne_nil _ _⟩
    rcases hi : invokeTransition fsm_log_enabled transition_func.call with ⟨attempts, outcome⟩
    rcases outcome with _ | e
    · simp [response_change, hname, hattr, hform, hi]
    · rcases e with _ | _ | msg | tag <;>
        simp [response_change, hname, hattr, hform, hi]
  · intro transition_func hattr hmeta
    simp [fsm_transition_view, hattr, hmeta]

/-- Witness for C10 at a concrete input: a plain callable attribute is
rejected by the form view with HTTP 400. -/
theorem not_valid_only_for_missing_attribute_witness :
    fsm_transition_view exPlainCallableObj "frobnicate" .get false [] =
      ⟨.badRequest "frobnicate", false, [], [], 0⟩ :=
  (not_valid_only_for_missing_attribute false "frobnicate" exPlainCallableObj
    .get false [] rfl).2.2.2 exPlainCallable rfl rfl

/-- C4: for every FSM field (iterated in sorted order), the change-view
context holds exactly the user-available transitions whose `"admin"` custom
value is truthy, the configured default standing in when the key is
absent. -/
theorem fsm_object_transitions_spec
    (fsm_fields : List String) (default_disallow : Bool)
    (userTransitions : String → List Transition) (field_name : String)
    (hmem : field_name ∈ fsm_fields) :
    ((_get_fsm_object_transitions fsm_fields default_disallow userTransitions).map
       FSMObjectTransition.fsm_field = fsm_fields.insertionSort (· ≤ ·)) ∧
    ∃ e ∈ _get_fsm_object_transitions fsm_fields default_disallow userTransitions,
      e.fsm_field = field_name ∧
      ∀ t, t ∈ e.available_transitions ↔
        t ∈ userTransitions field_name ∧ adminAllowed default_disallow t = true := by
  refine ⟨?_, mem_fsm_object_transitions _ _ _ _ hmem⟩
  simp only [_get_fsm_object_transitions]
  generalize fsm_fields.insertionSort (· ≤ ·) = l
  induction l with
  | nil => rfl
  | cons a l ih => simp [ih]

/-- Witness for C4 at a concrete input. -/
theorem fsm_object_transitions_spec_witness :
    ((_get_fsm_object_transitions ["state"] true (fun _ => [exPlainTransition])).map
       FSMObjectTransition.fsm_field = ["state"].insertionSort (· ≤ ·)) ∧
    ∃ e ∈ _get_fsm_object_transitions ["state"] true (fun _ => [exPlainTransition]),
      e.fsm_field = "state" ∧
      ∀ t, t ∈ e.available_transitions ↔
        t ∈ [exPlainTransition] ∧ adminAllowed true t = true :=
  fsm_object_transitions_spec ["state"] true (fun _ => [exPlainTransition]) "state"
    (by decide)

/-- C9: with `FSM_ADMIN_FORCE_PERMIT` absent or false the default is
permissive, so transitions lacking the `"admin"` key pass the admin filter;
with the setting true such transitions are excluded and only a truthy
`custom["admin"]` value admits a transition into the context list. -/
theorem force_permit_filter
    (t : Transition) (fsm_fields : List String)
    (userTransitions : String → List Transition) (field_name : String)
    (hmem : field_name ∈ fsm_fields) :
    (∀ sett : Option Bool, sett.getD false = false →
      customGet t.custom "admin" = none →
      adminAllowed (default_disallow_transition sett) t = true) ∧
    (customGet t.custom "admin" = none →
      adminAllowed (default_disallow_transition (some true)) t = false) ∧
    (∀ v, customGet t.custom "admin" = some v →
      ∀ sett : Option Bool, adminAllowed (default_disallow_transition sett) t = v.truthy) ∧
    (∀ default_disallow : Bool,
      ∃ e ∈ _get_fsm_object_transitions fsm_fields default_disallow userTransitions,
        e.fsm_field = field_name ∧
        ∀ u, u ∈ e.available_transitions ↔
          u ∈ userTransitions field_name ∧ adminAllowed default_disallow u = true) := by
  refine ⟨?_, ?_, ?_, ?_⟩
  · intro sett hs hnone
    simp [adminAllowed, default_disallow_transition, hnone, hs]
  · intro hnone
    simp [adminAllowed, default_disallow_transition, hnone]
  · intro v hv sett
    simp [adminAllowed, hv]
  · intro default_disallow
    exact mem_fsm_object_transitions _ _ _ _ hmem

/-- Witness for C9 at a concrete input: a transition without the `"admin"`
key is excluded once `FSM_ADMIN_FORCE_PERMIT` is true. -/
theorem force_permit_filter_witness :
    adminAllowed (default_disallow_transition (some true)) exNoAdminKeyTransition = false :=
  (force_permit_filter exNoAdminKeyTransition ["state"] (fun _ => [])
    "state" (by decide)).2.1 rfl

theorem roStep_eq_or (model_fields : List ModelField) (acc : List String) (f : String) :
    roStep model_fields acc f = acc ∨ (f ∉ acc ∧ roStep model_fields acc f = acc ++ [f]) := by
  unfold roStep
  by_cases hf : f ∈ acc
  · left; simp [hf]
  · rcases hg : get_field model_fields f with _ | field
    · left; simp [hf, hg]
    · by_cases hp : field.«protected» = true
      · right; exact ⟨hf, by simp [hf, hg, hp]⟩
      · left; simp [hf, hg, hp]

theorem get_readonly_fields_cons (model_fields : List ModelField) (f : String)
    (fs : List String) (base : List String) :
    get_readonly_fields model_fields (f :: fs) base =
      get_readonly_fields model_fields fs (roStep model_fields base f) := rfl

theorem get_readonly_fields_count_of_mem (model_fields : List ModelField)
    (fs : List String) (name : String) :
    ∀ base : List String, name ∈ base →
      (get_readonly_fields model_fields fs base).count name = base.count name := by
  induction fs with
  | nil => intro base _; rfl
  | cons f fs ih =>
    intro base h
    rw [get_readonly_fields_cons]
    rcases roStep_eq_or model_fields base f with hstep | ⟨hf, hstep⟩
    · rw [hstep]; exact ih base h
    · rw [hstep]
      have hne : f ≠ name := fun he => hf (he ▸ h)
      rw [ih _ (List.mem_append_left _ h)]
      simp [List.count_append, List.count_singleton', hne]

theorem get_readonly_fields_count_unprotected (model_fields : List ModelField)
    (name : String)
    (h : get_field model_fields name = none ∨
      ∃ field, get_field model_fields name = some field ∧ field.«protected» = false) :
    ∀ (fs : List String) (base : List String),
      (get_readonly_fields model_fields fs base).count name = base.count name := by
  intro fs
  induction fs with
  | nil => intro base; rfl
  | cons f fs ih =>
    intro base
    rw [get_readonly_fields_cons]
    by_cases hfn : f = name
    · subst hfn
      have hstep : roStep model_fields base f = base := by
        unfold roStep
        by_cases hf : f ∈ base
        · simp [hf]
        · rcases h with hnone | ⟨field, hsome, hp⟩
          · simp [hf, hnone]
          · simp [hf, hsome, hp]
      rw [hstep]; exact ih base
    · rcases roStep_eq_or model_fields base f with hstep | ⟨hf, hstep⟩
      · rw [hstep]; exact ih base
      · rw [hstep, ih _]
        simp [List.count_append, List.count_singleton', hfn]

theorem get_readonly_fields_count_protected (model_fields : List ModelField)
    (name : String) (field : ModelField)
    (hsome : get_field model_fields name = some field) (hp : field.«protected» = true) :
    ∀ (fs : List String) (base : List String), name ∈ fs → name ∉ base →
      (get_readonly_fields model_fields fs base).count name = base.count name + 1 := by
  intro fs
  induction fs with
  | nil => intro base hmem _; exact absurd hmem (List.not_mem_nil _)
  | cons f fs ih =>
    intro base hmem hnb
    rw [get_readonly_fields_cons]
    by_cases hfn : f = name
    · subst hfn
      have hstep : roStep model_fields base f = base ++ [f] := by
        unfold roStep; simp [hnb, hsome, hp]
      rw [hstep]
      rw [get_readonly_fields_count_of_mem model_fields fs f _ (by simp)]
      simp [List.count_append]
    · have hmem' : name ∈ fs := by
        rcases List.mem_cons.mp hmem with he | hm
        · exact absurd he.symm hfn
        · exact hm
      rcases roStep_eq_or model_fields base f with hstep | ⟨hf, hstep⟩
      · rw [hstep]; exact ih base hmem' hnb
      · rw [hstep]
        have hnb' : name ∉ base ++ [f] := by
          intro hmm
          rcases List.mem_append.mp hmm with h1 | h2
          · exact hnb h1
          · exact hfn (List.mem_singleton.mp h2).symm
        rw [ih _ hmem' hnb']
        simp [List.count_append, List.count_singleton', hfn]

/-- C5: with a duplicate-free superclass read-only tuple, every FSM field
that exists on the model and is protected appears exactly once in the
result of `get_readonly_fields`; names that do not exist on the model or
are not protected, and names already read-only, keep the count they have in
the superclass's tuple. -/
theorem get_readonly_fields_spec (model_fields : List ModelField)
    (fsm_fields base : List String) (hnd : base.Nodup) :
    (∀ name ∈ fsm_fields, ∀ field, get_field model_fields name = some field →
      field.«protected» = true →
      (get_readonly_fields model_fields fsm_fields base).count name = 1) ∧
    (∀ name, (get_field model_fields name = none ∨
        ∃ field, get_field model_fields name = some field ∧ field.«protected» = false) →
      (get_readonly_fields model_fields fsm_fields base).count name = base.count name) ∧
    (∀ name ∈ base,
      (get_readonly_fields model_fields fsm_fields base).count name = base.count name) := by
  refine ⟨?_, ?_, ?_⟩
  · intro name hmem field hsome hp
    by_cases hb : name ∈ base
    · rw [get_readonly_fields_count_of_mem model_fields fsm_fields name base hb]
      exact List.count_eq_one_of_mem hnd hb
    · rw [get_readonly_fields_count_protected model_fields name field hsome hp
        fsm_fields base hmem hb]
      rw [List.count_eq_zero_of_not_mem hb]
  · intro name h
    exact get_readonly_fields_count_unprotected model_fields name h fsm_fields base
  · intro name hb
    exact get_readonly_fields_count_of_mem model_fields fsm_fields name base hb

/-- Witness for C5 at a concrete input: a protected `"state"` field is
added exactly once, an unprotected `"note"` field keeps its base count. -/
theorem get_readonly_fields_spec_witness :
    (get_readonly_fields [⟨"state", true⟩, ⟨"note", false⟩] ["state", "note", "ghost"]
      ["id"]).count "state" = 1 ∧
    (get_readonly_fields [⟨"state", true⟩, ⟨"note", false⟩] ["state", "note", "ghost"]
      ["id"]).count "note" = List.count "note" ["id"] :=
  ⟨(get_readonly_fields_spec [⟨"state", true⟩, ⟨"note", false⟩] ["state", "note", "ghost"]
      ["id"] (by decide)).1 "state" (by decide) ⟨"state", true⟩ rfl rfl,
   (get_readonly_fields_spec [⟨"state", true⟩, ⟨"note", false⟩] ["state", "note", "ghost"]
      ["id"] (by decide)).2.1 "note" (Or.inr ⟨⟨"note", false⟩, rfl, rfl⟩)⟩

end DjangoFSMAdmin
